import Mathlib

/-!
Shallow embedding of the weak-calc-expert client core (App.vue) and of the
server-side guard of functions/api/llm.ts.

JS strings are modelled as `List Char` where character-level structure
matters (the expression buffer, the server-side expression guard) and as
`String` where only whole-string equality matters (result text, sound
paths).  JS numbers holding the token count are modelled as `Int` so that
non-negativity is a real theorem; timestamps are `Nat` (`Date.now()` is
non-negative and JS `now - last < 60` agrees with truncated `Nat`
subtraction whenever `now ≥ last`, and both sides deem the call debounced
when `now < last`).
-/

namespace WeakCalc

/-- The five values of the STATUS enum in App.vue. -/
inductive Status where
  | idle
  | editing
  | loading
  | result
  | failed
deriving DecidableEq, BEq, Repr

/-- The shape of the rateLimitConfig object (rateLimitConfig.ts). -/
structure RateLimitConfig where
  initialTokens : Int
  refillRate : Nat
  maxTokens : Int
  consumePerCall : Int
  cooldownOnEmpty : Nat
  busySound : String
  busyText : String
deriving DecidableEq, Repr

/-- The concrete configuration exported by rateLimitConfig.ts. -/
def rateLimitConfig : RateLimitConfig :=
  { initialTokens := 10
    refillRate := 2
    maxTokens := 10
    consumePerCall := 1
    cooldownOnEmpty := 5000
    busySound := "/sfx/expert_busy.mp3"
    busyText := "专家正忙，稍等片刻再算。" }

/-- The mutable refs of the Vue component that the claims are about:
`expression`, `resultText`, `audioUrl`, `status`, `tokens`,
`isRateLimited`, `lastSoundPlayTime`. -/
structure SessionState where
  expression : List Char
  resultText : String
  audioUrl : String
  status : Status
  tokens : Int
  isRateLimited : Bool
  lastSoundPlayTime : Nat
deriving DecidableEq, Repr

/-- uiText.loading in App.vue. -/
def uiTextLoading : String := "正在转给专家计算..."

/-- uiText.failed in App.vue — the fixed apology string. -/
def uiTextFailed : String := "实在抱歉专家算了半天没算出来"

/-- The initial values of the refs when the component is created. -/
def initialState : SessionState :=
  { expression := []
    resultText := ""
    audioUrl := ""
    status := .idle
    tokens := rateLimitConfig.initialTokens
    isRateLimited := false
    lastSoundPlayTime := 0 }

/-- The displayExpression computed property. -/
def displayExpression (s : SessionState) : String :=
  if s.status = .idle then "0"
  else if s.expression.isEmpty then "0"
  else String.mk s.expression

/-- The displayResult computed property: the busy text wins while
rate-limited, otherwise the text is chosen by the status. -/
def displayResult (s : SessionState) : String :=
  if s.isRateLimited then rateLimitConfig.busyText
  else
    match s.status with
    | .loading => uiTextLoading
    | .failed => uiTextFailed
    | .result => s.resultText
    | _ => ""

/-- The isEqualsDisabled computed property. -/
def isEqualsDisabled (s : SessionState) : Bool :=
  s.status == Status.loading || s.isRateLimited

/-- Outcome of the debounce gate at the head of playSound: whether the
call proceeds to the cache lookup, and the new lastSoundPlayTime.  The
cache lookup / fallback that follows never touches these two facts. -/
structure PlayResult where
  played : Bool
  lastSoundPlayTime : Nat
deriving DecidableEq, Repr

/-- The debounce gate of playSound: a non-forced call within 60
time-units of the last non-suppressed call returns immediately without
any state change; otherwise lastSoundPlayTime is set to now and the
sound proceeds. -/
def playSound (last now : Nat) (force : Bool) : PlayResult :=
  if force = false ∧ now - last < 60 then
    { played := false, lastSoundPlayTime := last }
  else
    { played := true, lastSoundPlayTime := now }

/-- The clear handler: resets expression, resultText, audioUrl and
returns to Idle; the limiter fields and the sound clock are untouched. -/
def clear (s : SessionState) : SessionState :=
  { s with expression := [], resultText := "", audioUrl := "", status := .idle }

/-- The four binary-operator characters recognised by handleInput and by
the decimal-segment regex split. -/
def isOperatorChar (c : Char) : Bool :=
  c == '+' || c == '-' || c == '*' || c == '/'

/-- JS String.prototype.split on the operator character class: splitting
the empty string gives one empty segment, and a trailing separator
yields a trailing empty segment — exactly as in JS. -/
def splitSegments : List Char → List (List Char)
  | [] => [[]]
  | c :: cs =>
    if isOperatorChar c then [] :: splitSegments cs
    else
      match splitSegments cs with
      | [] => [[c]]
      | s :: rest => (c :: s) :: rest

/-- segments[segments.length - 1] in handleInput: the last element of the
split (the split is never empty, so the default is never used). -/
def lastSegment (e : List Char) : List Char :=
  (splitSegments e).getLastD []

/-- Independent reading of "the trailing numeric segment": scanning the
expression left to right, an operator starts a fresh (empty) segment and
any other character extends the current one; the accumulator at the end
is the substring after the last operator. -/
def trailingSegment (e : List Char) : List Char :=
  e.foldl (fun seg c => if isOperatorChar c then [] else seg ++ [c]) []

/-- The handleInput handler: an implicit clear when arriving from
Result/Failed, then Editing, then the append rules (operators chain
freely; a decimal point is dropped when the trailing segment already
holds one; digits always append). -/
def handleInput (s0 : SessionState) (key : Char) : SessionState :=
  let s1 := if s0.status = .result ∨ s0.status = .failed then clear s0 else s0
  let s2 := { s1 with status := Status.editing }
  if isOperatorChar key then
    { s2 with expression := s2.expression ++ [key] }
  else if key == '.' then
    if (lastSegment s2.expression).contains '.' = false then
      { s2 with expression := s2.expression ++ [key] }
    else s2
  else
    { s2 with expression := s2.expression ++ [key] }

/-- The backspace handler: drop one trailing character when non-empty,
then fall back to Idle when the buffer is empty. -/
def backspace (s : SessionState) : SessionState :=
  let s1 :=
    if s.expression.length > 0 then
      { s with expression := s.expression.dropLast }
    else s
  if s1.expression.length = 0 then { s1 with status := Status.idle } else s1

/-- An observable audio effect of the evaluate flow: either a cached
sound-effect attempt that passed the debounce gate (identified by its
asset path), or the autoplay of the synthesized result audio. -/
inductive AudioEvent where
  | sfx (path : String)
  | resultAudio (dataUrl : String)
deriving DecidableEq, BEq, Repr

/-- Result of the synchronous prefix of handleEquals, up to (and
including) dispatching the generation request: the guard made it a
no-op, the limiter rejected it (busy branch, cooldown scheduled), or a
request was dispatched carrying a snapshot of the expression. -/
inductive EqStart where
  | noop (s : SessionState)
  | rejected (s : SessionState) (events : List AudioEvent)
  | dispatched (s : SessionState) (events : List AudioEvent) (sentExpr : List Char)
deriving DecidableEq, Repr

/-- The session state after the synchronous prefix of handleEquals. -/
def EqStart.state : EqStart → SessionState
  | .noop s => s
  | .rejected s _ => s
  | .dispatched s _ _ => s

/-- The sounds emitted by the synchronous prefix of handleEquals. -/
def EqStart.events : EqStart → List AudioEvent
  | .noop _ => []
  | .rejected _ evs => evs
  | .dispatched _ evs _ => evs

/-- Whether the synchronous prefix dispatched a remote request. -/
def EqStart.isDispatched : EqStart → Bool
  | .dispatched _ _ _ => true
  | _ => false

/-- Whether the limiter rejected the evaluate press. -/
def EqStart.isRejected : EqStart → Bool
  | .rejected _ _ => true
  | _ => false

/-- The synchronous prefix of handleEquals: return if the expression is
empty or equals is disabled; on an empty bucket enter the busy branch
(forced busy sound, busy text, rate-limited flag, cooldown scheduled)
without touching tokens; otherwise play the (non-forced) acknowledgement,
consume a token, enter Loading and dispatch the generation request with
the current expression. -/
def handleEqualsStart (s : SessionState) (now : Nat) : EqStart :=
  if s.expression.length = 0 ∨ isEqualsDisabled s = true then .noop s
  else if s.tokens < rateLimitConfig.consumePerCall then
    let pr := playSound s.lastSoundPlayTime now true
    .rejected
      { s with
        isRateLimited := true
        status := Status.editing
        resultText := rateLimitConfig.busyText
        lastSoundPlayTime := pr.lastSoundPlayTime }
      (if pr.played then [.sfx rateLimitConfig.busySound] else [])
  else
    let pr := playSound s.lastSoundPlayTime now false
    .dispatched
      { s with
        lastSoundPlayTime := pr.lastSoundPlayTime
        tokens := s.tokens - rateLimitConfig.consumePerCall
        status := Status.loading }
      (if pr.played then [.sfx "/sfx/keys/key_eq.mp3"] else [])
      s.expression

/-- The setTimeout callback scheduled by the busy branch: drop the
rate-limited flag, and clear resultText only when no later transition
has reached Result or Failed. -/
def cooldownFire (s : SessionState) : SessionState :=
  let s1 := { s with isRateLimited := false }
  if s1.status ≠ Status.result ∧ s1.status ≠ Status.failed then
    { s1 with resultText := "" }
  else s1

/-- The decoded outcome of the fetch to /api/llm as handleEquals sees
it: the transport success flag (`llmResponse.ok`) and the two payload
fields, each possibly absent (`typeof ... === 'undefined'`). -/
structure LlmHttpResponse where
  ok : Bool
  display : Option String
  explanation : Option String
deriving DecidableEq, Repr

/-- The decoded outcome of the fetch to /api/tts as handleEquals sees
it: the transport success flag and the dataUrl field, possibly absent
(and falsy when present but empty). -/
structure TtsHttpResponse where
  ok : Bool
  dataUrl : Option String
deriving DecidableEq, Repr

/-- The fixed failure sound path played by the catch block. -/
def failedSoundPath : String := "/sfx/expert_failed.mp3"

/-- Result of the asynchronous rest of handleEquals: the session state
after the completion is applied, the audio events it emitted, and
whether the synthesis endpoint was ever called. -/
structure EqOutcome where
  state : SessionState
  events : List AudioEvent
  ttsCalled : Bool
deriving DecidableEq, Repr

/-- The catch block of handleEquals: status becomes Failed and the
failure sound is played with force (so it always passes the debounce
gate and stamps the sound clock). -/
def applyFailure (s : SessionState) (now : Nat) (ttsCalled : Bool) : EqOutcome :=
  let pr := playSound s.lastSoundPlayTime now true
  { state := { s with status := Status.failed, lastSoundPlayTime := pr.lastSoundPlayTime }
    events := if pr.played then [.sfx failedSoundPath] else []
    ttsCalled := ttsCalled }

/-- The asynchronous rest of handleEquals, applied to whatever the
session state is when the responses arrive: a non-ok generation
response or a payload missing display/explanation throws before the
synthesis call; after a good generation response resultText is set,
then a non-ok synthesis response or a falsy dataUrl throws; on full
success audioUrl is set, status becomes Result and the synthesized
audio is auto-played. -/
def handleEqualsComplete (s : SessionState) (now : Nat)
    (llm : LlmHttpResponse) (tts : TtsHttpResponse) : EqOutcome :=
  if llm.ok = false then applyFailure s now false
  else
    match llm.display, llm.explanation with
    | some d, some _ =>
      let s1 := { s with resultText := d }
      if tts.ok = false then applyFailure s1 now true
      else
        match tts.dataUrl with
        | none => applyFailure s1 now true
        | some u =>
          if u.isEmpty then applyFailure s1 now true
          else
            { state := { s1 with audioUrl := u, status := Status.result }
              events := [.resultAudio u]
              ttsCalled := true }
    | _, _ => applyFailure s now false

/-- A full run of handleEquals with no interleaved user action: the
synchronous prefix followed (when a request was dispatched) by the
completion applied to the state the prefix left behind. -/
def handleEqualsRun (s : SessionState) (now now2 : Nat)
    (llm : LlmHttpResponse) (tts : TtsHttpResponse) : EqOutcome :=
  match handleEqualsStart s now with
  | .noop s1 => { state := s1, events := [], ttsCalled := false }
  | .rejected s1 evs => { state := s1, events := evs, ttsCalled := false }
  | .dispatched s1 evs _ =>
    let out := handleEqualsComplete s1 now2 llm tts
    { out with events := evs ++ out.events }

/-- The two code sites that ever write tokens: the setInterval refill
tick in onMounted, and the consumption inside handleEquals (which only
happens when the guard `tokens < consumePerCall` failed, i.e. when the
call is admitted). -/
inductive BucketEvent where
  | refillTick
  | equalsPress
deriving DecidableEq, Repr

/-- One write to tokens: the refill adds 1 clamped to maxTokens (and
only fires at all below maxTokens); an evaluate press subtracts exactly
consumePerCall when admitted and leaves tokens alone when rejected. -/
def bucketStep (t : Int) : BucketEvent → Int
  | .refillTick =>
    if t < rateLimitConfig.maxTokens then min (t + 1) rateLimitConfig.maxTokens else t
  | .equalsPress =>
    if t < rateLimitConfig.consumePerCall then t else t - rateLimitConfig.consumePerCall

/-- The token count reached from the initial configuration after a
sequence of refill ticks and evaluate presses. -/
def bucketReach (evs : List BucketEvent) : Int :=
  evs.foldl bucketStep rateLimitConfig.initialTokens

/-- The character class of the server-side guard regex
`^[0-9+\-*/().\s]+$` in functions/api/llm.ts; `\s` is the JS whitespace
class. -/
def validKeyboardChar (c : Char) : Bool :=
  ('0' ≤ c && c ≤ '9') || c == '+' || c == '-' || c == '*' || c == '/' ||
  c == '(' || c == ')' || c == '.' ||
  c == ' ' || c == '\t' || c == '\n' || c == '\r' || c == '\x0b' || c == '\x0c' ||
  c == '\u00A0' || c == '\u1680' || ('\u2000' ≤ c && c ≤ '\u200A') ||
  c == '\u2028' || c == '\u2029' || c == '\u202F' || c == '\u205F' ||
  c == '\u3000' || c == '\uFEFF'

/-- `validKeyboardChars.test(expr)`: the regex matches exactly the
non-empty strings all of whose characters are in the class. -/
def validKeyboardExpr (e : List Char) : Bool :=
  !e.isEmpty && e.all validKeyboardChar

/-- Where the onRequestPost handler of /api/llm routes a decoded request
body: a 400 for a missing/empty expr, the fixed 200 guard payload for an
expr with characters outside the keyboard class, or on to the language
model. -/
inductive LlmRoute where
  | missingExpression
  | guardReject
  | invokeModel (expr : List Char)
deriving DecidableEq, Repr

/-- The early, model-free part of onRequestPost in functions/api/llm.ts:
`if (!expr)` returns MISSING_EXPRESSION (400); then an expr failing the
keyboard regex returns the fixed payload without any model call;
otherwise the request proceeds to the model. -/
def llmRoute (expr : Option (List Char)) : LlmRoute :=
  match expr with
  | none => .missingExpression
  | some e =>
    if e.isEmpty then .missingExpression
    else if validKeyboardExpr e = false then .guardReject
    else .invokeModel e

/-- The fixed response body and status returned by the guardReject
branch of onRequestPost. -/
structure GuardResponse where
  status : Nat
  explanation : String
  display : String
deriving DecidableEq, Repr

/-- The literal response built by the guard branch: HTTP 200 with
explanation " " and display "Error". -/
def guardRejectResponse : GuardResponse :=
  { status := 200, explanation := " ", display := "Error" }

/-! ### Segment lemmas: the split-based last segment of the code equals
the left-to-right trailing-segment reading of the spec. -/

lemma splitSegments_ne_nil (e : List Char) : splitSegments e ≠ [] := by
  cases e with
  | nil => simp [splitSegments]
  | cons c cs =>
    unfold splitSegments
    by_cases hc : isOperatorChar c = true
    · simp [hc]
    · simp only [hc]
      simp
      cases splitSegments cs <;> simp

lemma splitSegments_no_op (e : List Char) (h : e.any isOperatorChar = false) :
    splitSegments e = [e] := by
  induction e with
  | nil => rfl
  | cons c cs ih =>
    simp only [List.any_cons, Bool.or_eq_false_iff] at h
    unfold splitSegments
    rw [ih h.2]
    simp [h.1]

lemma splitSegments_two_le (e : List Char) (h : e.any isOperatorChar = true) :
    2 ≤ (splitSegments e).length := by
  induction e with
  | nil => simp at h
  | cons c cs ih =>
    unfold splitSegments
    by_cases hc : isOperatorChar c = true
    · have hne := splitSegments_ne_nil cs
      have : 1 ≤ (splitSegments cs).length := List.length_pos.mpr hne
      simp [hc]
      omega
    · simp only [List.any_cons, hc, Bool.false_or] at h
      have h2 := ih h
      simp only [hc]
      simp
      cases hs : splitSegments cs with
      | nil => exact absurd hs (splitSegments_ne_nil cs)
      | cons s rest =>
        rw [hs] at h2
        simp at h2 ⊢
        omega

lemma getLastD_cons_of_ne_nil {α : Type} (a : α) (l : List α) (d : α) (h : l ≠ []) :
    (a :: l).getLastD d = l.getLastD d := by
  cases l with
  | nil => exact absurd rfl h
  | cons b l' =>
    simp [List.getLastD_eq_getLast?, List.getLast?_cons_cons]

lemma splitSegments_cons_op (c : Char) (cs : List Char) (hc : isOperatorChar c = true) :
    splitSegments (c :: cs) = [] :: splitSegments cs := by
  simp [splitSegments, hc]

lemma splitSegments_cons_not_op (c : Char) (cs : List Char) (s : List Char)
    (rest : List (List Char)) (hc : isOperatorChar c = false)
    (hs : splitSegments cs = s :: rest) :
    splitSegments (c :: cs) = (c :: s) :: rest := by
  simp [splitSegments, hc, hs]

lemma lastSegment_no_op (e : List Char) (h : e.any isOperatorChar = false) :
    lastSegment e = e := by
  unfold lastSegment
  rw [splitSegments_no_op e h]
  simp

lemma lastSegment_cons_op (c : Char) (cs : List Char) (hc : isOperatorChar c = true) :
    lastSegment (c :: cs) = lastSegment cs := by
  unfold lastSegment
  rw [splitSegments_cons_op c cs hc]
  exact getLastD_cons_of_ne_nil _ _ _ (splitSegments_ne_nil cs)

lemma lastSegment_cons_not_op (c : Char) (cs : List Char)
    (hc : isOperatorChar c = false) (h : cs.any isOperatorChar = true) :
    lastSegment (c :: cs) = lastSegment cs := by
  cases hs : splitSegments cs with
  | nil => exact absurd hs (splitSegments_ne_nil cs)
  | cons s rest =>
    have h2 := splitSegments_two_le cs h
    rw [hs] at h2
    simp at h2
    have hrest : rest ≠ [] := by
      cases rest with
      | nil => simp at h2
      | cons r rest' => simp
    unfold lastSegment
    rw [splitSegments_cons_not_op c cs s rest hc hs, hs]
    rw [getLastD_cons_of_ne_nil _ _ _ hrest, getLastD_cons_of_ne_nil _ _ _ hrest]

lemma foldl_trailing (e : List Char) :
    ∀ seg : List Char,
      e.foldl (fun seg c => if isOperatorChar c then [] else seg ++ [c]) seg =
        if e.any isOperatorChar then lastSegment e else seg ++ e := by
  induction e with
  | nil => intro seg; simp
  | cons c cs ih =>
    intro seg
    rw [List.foldl_cons, ih]
    cases hc : isOperatorChar c with
    | true =>
      have hl := lastSegment_cons_op c cs hc
      cases ha : cs.any isOperatorChar with
      | true => simp [hc, ha, hl]
      | false => simp [hc, ha, hl, lastSegment_no_op cs ha]
    | false =>
      cases ha : cs.any isOperatorChar with
      | true =>
        have hl := lastSegment_cons_not_op c cs hc ha
        simp [hc, ha, hl]
      | false => simp [hc, ha]

lemma trailingSegment_eq_lastSegment (e : List Char) :
    trailingSegment e = lastSegment e := by
  unfold trailingSegment
  rw [foldl_trailing e []]
  cases ha : e.any isOperatorChar with
  | true => simp [ha]
  | false => simp [ha, lastSegment_no_op e ha]

/-! ### Claims C6, C7, C8 -/

/-- C6: a decimal-point keystroke is appended exactly when the trailing
numeric segment (the substring after the last operator) does not already
contain a decimal point, and is a no-op otherwise; and the keystroke
sequence 3 . 5 . 2 from the initial state yields the expression
"3.52". -/
theorem C6_decimal_per_segment (s : SessionState)
    (h1 : s.status ≠ Status.result) (h2 : s.status ≠ Status.failed) :
    ((handleInput s '.').expression =
      if (trailingSegment s.expression).contains '.' = true then s.expression
      else s.expression ++ ['.']) ∧
    (List.foldl handleInput initialState ['3', '.', '5', '.', '2']).expression
      = ['3', '.', '5', '2'] := by
  constructor
  · have hns : ¬ (s.status = Status.result ∨ s.status = Status.failed) := by
      intro h; cases h with
      | inl h => exact h1 h
      | inr h => exact h2 h
    have hop : isOperatorChar '.' = false := by decide
    rw [trailingSegment_eq_lastSegment]
    by_cases hdot : '.' ∈ lastSegment s.expression
    · have hc : (lastSegment s.expression).contains '.' = true := by
        simpa using hdot
      simp [handleInput, hns, hop, hc, hdot]
    · have hc : (lastSegment s.expression).contains '.' = false := by
        simpa using hdot
      simp [handleInput, hns, hop, hc, hdot]
  · decide

/-- The state reached by scenario A of the spec just after the pipeline
resolved: expression "12", result "24" on display, audio present. -/
def resolvedExampleState : SessionState :=
  { expression := ['1', '2']
    resultText := "24"
    audioUrl := "data:audio/mp3;base64,AA=="
    status := .result
    tokens := 9
    isRateLimited := false
    lastSoundPlayTime := 0 }

/-- C7 counterexample: from a Resolved session holding expression "12",
appending the digit 3 (an accepted append) and then backspacing yields
the empty expression, not the prior expression "12" — because input
arriving from Resolved first performs the implicit clear. -/
theorem C7_counterexample :
    (backspace (handleInput resolvedExampleState '3')).expression ≠
      resolvedExampleState.expression := by decide

/-- Whether handleInput will actually append the key to the expression
(only a decimal point whose trailing segment already holds one is
dropped). -/
def acceptsInput (s : SessionState) (k : Char) : Bool :=
  !(k == '.' && (lastSegment s.expression).contains '.')

/-- The expression after backspace is always the dropLast of the
expression before it (both when it was non-empty and when it was
already empty). -/
lemma backspace_expression (s : SessionState) :
    (backspace s).expression = s.expression.dropLast := by
  cases hs : s.expression with
  | nil => simp [backspace, hs]
  | cons a l =>
    by_cases h2 : ((a :: l).dropLast).length = 0
    · simp [backspace, hs, h2]
    · simp [backspace, hs, h2]
      split <;> rfl

/-- C7 (amended): for every session state whose mode is not Resolved and
not Failed, an accepted digit/operator/decimal append followed by one
backspace restores the prior expression exactly. -/
theorem C7_backspace_left_inverse (s : SessionState) (k : Char)
    (h1 : s.status ≠ Status.result) (h2 : s.status ≠ Status.failed)
    (h3 : acceptsInput s k = true) :
    (backspace (handleInput s k)).expression = s.expression := by
  have hns : ¬ (s.status = Status.result ∨ s.status = Status.failed) := by
    intro h; cases h with
    | inl h => exact h1 h
    | inr h => exact h2 h
  have hexpr : (handleInput s k).expression = s.expression ++ [k] := by
    cases hop : isOperatorChar k with
    | true => simp [handleInput, hns, hop]
    | false =>
      cases hk : (k == '.') with
      | true =>
        have hd : ¬ ('.' ∈ lastSegment s.expression) := by
          unfold acceptsInput at h3
          rw [hk] at h3
          simpa using h3
        simp [handleInput, hns, hop, hk, hd]
      | false => simp [handleInput, hns, hop, hk]
  rw [backspace_expression, hexpr, List.dropLast_concat]

/-- C8: clear is idempotent — clearing twice equals clearing once, and
either way the session is Idle with empty expression, empty result text
and empty audio reference. -/
theorem C8_clear_idempotent (s : SessionState) :
    clear (clear s) = clear s ∧ (clear s).status = Status.idle ∧
    (clear s).expression = [] ∧ (clear s).resultText = "" ∧
    (clear s).audioUrl = "" :=
  ⟨rfl, rfl, rfl, rfl, rfl⟩

/-! ### Token bucket (C3) -/

lemma bucketStep_bounds (t : Int) (ev : BucketEvent)
    (h0 : 0 ≤ t) (h1 : t ≤ rateLimitConfig.maxTokens) :
    0 ≤ bucketStep t ev ∧ bucketStep t ev ≤ rateLimitConfig.maxTokens := by
  cases ev with
  | refillTick =>
    simp only [bucketStep, rateLimitConfig] at *
    split
    · rw [Int.min_def]
      split <;> omega
    · exact ⟨h0, h1⟩
  | equalsPress =>
    simp only [bucketStep, rateLimitConfig] at *
    split <;> omega

lemma bucketFold_bounds (evs : List BucketEvent) :
    ∀ t : Int, 0 ≤ t → t ≤ rateLimitConfig.maxTokens →
      0 ≤ evs.foldl bucketStep t ∧ evs.foldl bucketStep t ≤ rateLimitConfig.maxTokens := by
  induction evs with
  | nil => intro t h0 h1; simpa using ⟨h0, h1⟩
  | cons ev evs ih =>
    intro t h0 h1
    rw [List.foldl_cons]
    have hb := bucketStep_bounds t ev h0 h1
    exact ih (bucketStep t ev) hb.1 hb.2

/-- C3: in every reachable state the token count lies in
[0, maxTokens]; a refill tick never decreases it, adds at most one and
never pushes it past maxTokens; an admitted evaluate press decreases it
by exactly consumePerCall, a rejected one leaves it untouched — and the
tokens field written by handleEquals follows exactly that discipline. -/
theorem C3_token_bucket_invariant :
    (∀ evs : List BucketEvent,
      0 ≤ bucketReach evs ∧ bucketReach evs ≤ rateLimitConfig.maxTokens) ∧
    (∀ t : Int, rateLimitConfig.consumePerCall ≤ t →
      bucketStep t BucketEvent.equalsPress = t - rateLimitConfig.consumePerCall) ∧
    (∀ t : Int, t < rateLimitConfig.consumePerCall →
      bucketStep t BucketEvent.equalsPress = t) ∧
    (∀ t : Int, 0 ≤ t → t ≤ rateLimitConfig.maxTokens →
      t ≤ bucketStep t BucketEvent.refillTick ∧
      bucketStep t BucketEvent.refillTick ≤ t + 1 ∧
      bucketStep t BucketEvent.refillTick ≤ rateLimitConfig.maxTokens) ∧
    (∀ (s : SessionState) (now : Nat),
      rateLimitConfig.consumePerCall ≤ s.tokens → s.expression ≠ [] →
      isEqualsDisabled s = false →
      (handleEqualsStart s now).state.tokens = s.tokens - rateLimitConfig.consumePerCall) ∧
    (∀ (s : SessionState) (now : Nat), s.tokens < rateLimitConfig.consumePerCall →
      (handleEqualsStart s now).state.tokens = s.tokens) := by
  refine ⟨?_, ?_, ?_, ?_, ?_, ?_⟩
  · intro evs
    exact bucketFold_bounds evs rateLimitConfig.initialTokens (by decide) (by decide)
  · intro t h
    simp only [bucketStep]
    rw [if_neg (by omega)]
  · intro t h
    simp only [bucketStep]
    rw [if_pos h]
  · intro t h0 h1
    simp only [bucketStep, rateLimitConfig] at *
    split
    · rw [Int.min_def]
      split <;> omega
    · omega
  · intro s now h hexp hdis
    have hge : ¬ (s.tokens < rateLimitConfig.consumePerCall) := not_lt.mpr h
    simp [handleEqualsStart, hexp, hdis, hge, EqStart.state]
  · intro s now h
    by_cases hexp : s.expression = []
    · simp [handleEqualsStart, hexp, EqStart.state]
    · by_cases hdis : isEqualsDisabled s = true
      · simp [handleEqualsStart, hdis, EqStart.state]
      · simp [handleEqualsStart, hexp, hdis, h, EqStart.state]

/-- Witness for C3 at concrete token counts: an admitted press takes
exactly one token from 5, and a press on an empty bucket leaves 0. -/
theorem C3_token_bucket_invariant_witness :
    bucketStep 5 BucketEvent.equalsPress = 5 - rateLimitConfig.consumePerCall ∧
    bucketStep 0 BucketEvent.equalsPress = 0 :=
  ⟨C3_token_bucket_invariant.2.1 5 (by decide),
   C3_token_bucket_invariant.2.2.1 0 (by decide)⟩

/-! ### Rate-limit rejection (C4) -/

/-- C4: pressing evaluate from Editing with an empty bucket leaves
tokens untouched, keeps the session in Editing with the busy text shown
immediately and the (forced) busy sound emitted, dispatches no remote
request, and the scheduled cooldown clears the busy flag and the busy
text — while a cooldown firing after a later Resolved or Failed
transition leaves that resultText alone. -/
theorem C4_rate_limit_rejection (s : SessionState) (now : Nat)
    (h1 : s.status = Status.editing) (h2 : s.expression ≠ [])
    (h3 : s.isRateLimited = false)
    (h4 : s.tokens < rateLimitConfig.consumePerCall) :
    (handleEqualsStart s now).isRejected = true ∧
    (handleEqualsStart s now).isDispatched = false ∧
    (handleEqualsStart s now).state.tokens = s.tokens ∧
    (handleEqualsStart s now).state.status = Status.editing ∧
    (handleEqualsStart s now).state.expression = s.expression ∧
    (handleEqualsStart s now).state.resultText = rateLimitConfig.busyText ∧
    (handleEqualsStart s now).state.isRateLimited = true ∧
    displayResult (handleEqualsStart s now).state = rateLimitConfig.busyText ∧
    (handleEqualsStart s now).events = [AudioEvent.sfx rateLimitConfig.busySound] ∧
    (cooldownFire (handleEqualsStart s now).state).isRateLimited = false ∧
    (cooldownFire (handleEqualsStart s now).state).resultText = "" ∧
    (∀ t : SessionState, t.status = Status.result ∨ t.status = Status.failed →
      (cooldownFire t).resultText = t.resultText) := by
  have hdis : isEqualsDisabled s = false := by
    simp only [isEqualsDisabled, h1, h3]
    decide
  have hr : handleEqualsStart s now =
      EqStart.rejected
        { s with
            isRateLimited := true
            status := Status.editing
            resultText := rateLimitConfig.busyText
            lastSoundPlayTime := now }
        [AudioEvent.sfx rateLimitConfig.busySound] := by
    simp [handleEqualsStart, h2, hdis, h4, playSound]
  rw [hr]
  refine ⟨rfl, rfl, rfl, rfl, rfl, rfl, rfl, ?_, rfl, ?_, ?_, ?_⟩
  · simp [displayResult, EqStart.state]
  · simp [cooldownFire, EqStart.state]
  · simp [cooldownFire, EqStart.state]
  · intro t ht
    rcases ht with h | h <;> simp [cooldownFire, h]

/-- A concrete Editing session with an empty bucket. -/
def emptyBucketState : SessionState :=
  { expression := ['7']
    resultText := ""
    audioUrl := ""
    status := .editing
    tokens := 0
    isRateLimited := false
    lastSoundPlayTime := 0 }

/-- Witness for C4: the empty-bucket press at time 0 is rejected with
the busy text shown. -/
theorem C4_rate_limit_rejection_witness :
    (handleEqualsStart emptyBucketState 0).isRejected = true ∧
    displayResult (handleEqualsStart emptyBucketState 0).state =
      rateLimitConfig.busyText :=
  ⟨(C4_rate_limit_rejection emptyBucketState 0 rfl (by decide) rfl (by decide)).1,
   (C4_rate_limit_rejection emptyBucketState 0 rfl (by decide) rfl (by decide)).2.2.2.2.2.2.2.1⟩

/-! ### Audio debounce (C5) -/

/-- An Editing session whose last non-suppressed sound played at time
1000, with a full bucket. -/
def recentSoundState : SessionState :=
  { expression := ['1']
    resultText := ""
    audioUrl := ""
    status := .editing
    tokens := 10
    isRateLimited := false
    lastSoundPlayTime := 1000 }

/-- C5 counterexample: the evaluate acknowledgement is NOT a forced play
call — pressing evaluate at time 1030, thirty time-units after the last
sound, admits the call (a request is dispatched) yet emits no
acknowledgement sound, so a play call the claim lists as forced fails to
proceed. -/
theorem C5_counterexample :
    (handleEqualsStart recentSoundState 1030).isDispatched = true ∧
    (handleEqualsStart recentSoundState 1030).events = [] := by decide

/-- C5 (amended): a non-forced play call within 60 time-units of the
most recent non-suppressed play call (in particular, of the previous
non-forced call that actually sounded) is suppressed entirely with no
state change, and one at 60 or more time-units proceeds; forced play
calls (the busy notice and the failure notice) always bypass the
debounce; the evaluate acknowledgement is issued non-forced, so an
admitted evaluate press within 60 time-units of the last sound emits no
acknowledgement. -/
theorem C5_debounce_discipline :
    (∀ last now : Nat, now - last < 60 →
      playSound last now false = { played := false, lastSoundPlayTime := last }) ∧
    (∀ last now : Nat, (playSound last now true).played = true ∧
      (playSound last now true).lastSoundPlayTime = now) ∧
    (∀ last now : Nat, 60 ≤ now - last → (playSound last now false).played = true) ∧
    (∀ (s : SessionState) (now : Nat) (ttsCalled : Bool),
      (applyFailure s now ttsCalled).events = [AudioEvent.sfx failedSoundPath]) ∧
    (∀ (s : SessionState) (now : Nat),
      s.expression ≠ [] → isEqualsDisabled s = false →
      rateLimitConfig.consumePerCall ≤ s.tokens → now - s.lastSoundPlayTime < 60 →
      (handleEqualsStart s now).events = []) := by
  refine ⟨?_, ?_, ?_, ?_, ?_⟩
  · intro last now h
    simp [playSound, h]
  · intro last now
    simp [playSound]
  · intro last now h
    have hn : ¬ (now - last < 60) := by omega
    simp [playSound, hn]
  · intro s now b
    simp [applyFailure, playSound]
  · intro s now hexp hdis htok hlt
    have hge : ¬ (s.tokens < rateLimitConfig.consumePerCall) := not_lt.mpr htok
    simp [handleEqualsStart, hexp, hdis, hge, playSound, hlt, EqStart.events]

/-- Witness for C5 (amended): a non-forced call 30 time-units after the
last sound is suppressed with no state change. -/
theorem C5_debounce_discipline_witness :
    playSound 0 30 false = { played := false, lastSoundPlayTime := 0 } :=
  C5_debounce_discipline.1 0 30 (by decide)

/-! ### Server-side expression guard (C9) -/

/-- C9: a request whose expr contains any character outside the
calculator-keyboard class is answered by the fixed 200 payload with
explanation " " and display "Error", and is never routed to the
language model. -/
theorem C9_server_guard (e : List Char)
    (h : e.any (fun c => validKeyboardChar c = false) = true) :
    llmRoute (some e) = LlmRoute.guardReject ∧
    guardRejectResponse.status = 200 ∧
    guardRejectResponse.explanation = " " ∧
    guardRejectResponse.display = "Error" ∧
    (∀ e0 : List Char, llmRoute (some e) ≠ LlmRoute.invokeModel e0) := by
  obtain ⟨c, hc, hcv⟩ := List.any_eq_true.mp h
  have hcv : validKeyboardChar c = false := by simpa using hcv
  have hne : e ≠ [] := by
    intro he
    rw [he] at hc
    simp at hc
  have hall : e.all validKeyboardChar = false := by
    cases hall : e.all validKeyboardChar with
    | false => rfl
    | true =>
      have := List.all_eq_true.mp hall c hc
      rw [hcv] at this
      cases this
  have hval : validKeyboardExpr e = false := by
    simp [validKeyboardExpr, hall]
  have hroute : llmRoute (some e) = LlmRoute.guardReject := by
    simp [llmRoute, hne, hval]
  refine ⟨hroute, rfl, rfl, rfl, ?_⟩
  intro e0
  rw [hroute]
  intro hcontra
  cases hcontra

/-- Witness for C9: the expression "1+a" (containing the letter a) hits
the guard. -/
theorem C9_server_guard_witness :
    llmRoute (some ['1', '+', 'a']) = LlmRoute.guardReject :=
  (C9_server_guard ['1', '+', 'a'] (by decide)).1

/-! ### Stale completion after clear (C1) -/

/-- An Editing session holding the expression "1+2" with a full bucket,
about to press evaluate. -/
def c1Initial : SessionState :=
  { expression := ['1', '+', '2']
    resultText := ""
    audioUrl := ""
    status := .editing
    tokens := 10
    isRateLimited := false
    lastSoundPlayTime := 0 }

/-- The session right after the evaluate press at time 100 dispatched
the generation request (it is Loading). -/
def c1Pending : SessionState := (handleEqualsStart c1Initial 100).state

/-- The session after the user presses clear while the request is still
in flight: back to Idle. -/
def c1Cleared : SessionState := clear c1Pending

/-- The outcome of the outstanding request completing successfully at
time 5000, applied — as the code applies it, with no staleness check —
to the already-cleared session. -/
def c1LateOutcome : EqOutcome :=
  handleEqualsComplete c1Cleared 5000
    { ok := true, display := some "24", explanation := some "twelve plus three times four" }
    { ok := true, dataUrl := some "data:audio/mp3;base64,AA==" }

/-- C1: the code violates the stale-response guard.  The evaluate press
dispatches a request; clear during Pending returns the session to Idle;
yet when the outstanding request later resolves, the completion is
applied — the displayed state becomes Resolved, not Idle, so the late
resolution is not discarded. -/
theorem C1_stale_completion_applied :
    (handleEqualsStart c1Initial 100).isDispatched = true ∧
    c1Cleared.status = Status.idle ∧
    c1LateOutcome.state.status = Status.result ∧
    Status.result ≠ Status.idle := by decide

/-! ### Frame property of evaluation (C10) -/

lemma start_state_expression (s : SessionState) (now : Nat) :
    (handleEqualsStart s now).state.expression = s.expression := by
  by_cases hexp : s.expression = []
  · simp [handleEqualsStart, hexp, EqStart.state]
  · by_cases hdis : isEqualsDisabled s = true
    · simp [handleEqualsStart, hdis, EqStart.state]
    · by_cases htok : s.tokens < rateLimitConfig.consumePerCall
      · simp [handleEqualsStart, hexp, hdis, htok, EqStart.state]
      · simp [handleEqualsStart, hexp, hdis, htok, EqStart.state]

lemma complete_state_expression (s : SessionState) (now : Nat)
    (llm : LlmHttpResponse) (tts : TtsHttpResponse) :
    (handleEqualsComplete s now llm tts).state.expression = s.expression := by
  obtain ⟨ok, dis, exp⟩ := llm
  obtain ⟨tok, tdu⟩ := tts
  cases ok <;> cases dis <;> cases exp <;> cases tok <;> cases tdu <;>
    simp [handleEqualsComplete, applyFailure] <;> split <;> rfl

/-- C10: a run of the evaluate operation — rejected or admitted,
failing at either stage or succeeding — never mutates the expression
buffer: after the outcome is applied the expression equals its value at
the moment evaluate was pressed. -/
theorem C10_expression_frame (s : SessionState) (now now2 : Nat)
    (llm : LlmHttpResponse) (tts : TtsHttpResponse) :
    (handleEqualsRun s now now2 llm tts).state.expression = s.expression := by
  have hst := start_state_expression s now
  unfold handleEqualsRun
  cases he : handleEqualsStart s now with
  | noop s1 =>
    rw [he] at hst
    simpa [EqStart.state] using hst
  | rejected s1 evs =>
    rw [he] at hst
    simpa [EqStart.state] using hst
  | dispatched s1 evs ex =>
    rw [he] at hst
    simp only [EqStart.state] at hst
    simpa [complete_state_expression] using hst

/-! ### Pipeline failure handling (C2) -/

/-- If the generation response is not ok or lacks one of its two
required fields, the completion short-circuits into the catch block:
Failed state, one forced failure sound, and the synthesis endpoint is
never called. -/
lemma complete_llm_fail (s1 : SessionState) (now2 : Nat)
    (llm : LlmHttpResponse) (tts : TtsHttpResponse)
    (h : llm.ok = false ∨ llm.display = none ∨ llm.explanation = none) :
    handleEqualsComplete s1 now2 llm tts =
      { state := { s1 with status := Status.failed, lastSoundPlayTime := now2 }
        events := [AudioEvent.sfx failedSoundPath]
        ttsCalled := false } := by
  obtain ⟨ok, dis, exp⟩ := llm
  cases ok <;> cases dis <;> cases exp <;>
    simp_all [handleEqualsComplete, applyFailure, playSound]

/-- If generation succeeded with both fields but synthesis is not ok or
returned a falsy dataUrl, the completion sets resultText from the
generation display and then fails: Failed state, one forced failure
sound, synthesis was attempted. -/
lemma complete_tts_fail (s1 : SessionState) (now2 : Nat)
    (llm : LlmHttpResponse) (tts : TtsHttpResponse) (d e0 : String)
    (hok : llm.ok = true) (hd : llm.display = some d)
    (he : llm.explanation = some e0)
    (hf : tts.ok = false ∨ tts.dataUrl = none ∨ tts.dataUrl = some "") :
    handleEqualsComplete s1 now2 llm tts =
      { state := { s1 with
            resultText := d
            status := Status.failed
            lastSoundPlayTime := now2 }
        events := [AudioEvent.sfx failedSoundPath]
        ttsCalled := true } := by
  obtain ⟨ok, dis, exp⟩ := llm
  obtain ⟨tok, tdu⟩ := tts
  simp only at hok hd he
  subst hok hd he
  have h0 : ("" : String).isEmpty = true := rfl
  cases tok <;> cases tdu <;>
    simp_all [handleEqualsComplete, applyFailure, playSound, h0]

/-- On full success the completion stores the audio, enters Result and
auto-plays the synthesized audio once. -/
lemma complete_success (s1 : SessionState) (now2 : Nat)
    (llm : LlmHttpResponse) (tts : TtsHttpResponse) (d e0 u : String)
    (hok : llm.ok = true) (hd : llm.display = some d)
    (he : llm.explanation = some e0)
    (ht : tts.ok = true) (hu : tts.dataUrl = some u) (hue : u ≠ "") :
    handleEqualsComplete s1 now2 llm tts =
      { state := { s1 with
            resultText := d
            audioUrl := u
            status := Status.result }
        events := [AudioEvent.resultAudio u]
        ttsCalled := true } := by
  obtain ⟨ok, dis, exp⟩ := llm
  obtain ⟨tok, tdu⟩ := tts
  simp only at hok hd he ht hu
  subst hok hd he ht hu
  have hne : u.isEmpty = false := by
    cases hi : u.isEmpty with
    | false => rfl
    | true => exact absurd ((String.isEmpty_iff u).mp hi) hue
  simp [handleEqualsComplete, applyFailure, hne]

/-- An admitted evaluate press runs the synchronous prefix into Loading
(with the possibly-debounced acknowledgement) and then applies the
completion to the state the prefix left behind. -/
lemma run_admitted (s : SessionState) (now now2 : Nat)
    (llm : LlmHttpResponse) (tts : TtsHttpResponse)
    (h1 : s.expression ≠ []) (h2 : isEqualsDisabled s = false)
    (h3 : ¬ (s.tokens < rateLimitConfig.consumePerCall)) :
    handleEqualsRun s now now2 llm tts =
      { handleEqualsComplete
          { s with
              lastSoundPlayTime := (playSound s.lastSoundPlayTime now false).lastSoundPlayTime
              tokens := s.tokens - rateLimitConfig.consumePerCall
              status := Status.loading } now2 llm tts with
        events :=
          (if (playSound s.lastSoundPlayTime now false).played = true then
            [AudioEvent.sfx "/sfx/keys/key_eq.mp3"] else []) ++
          (handleEqualsComplete
            { s with
                lastSoundPlayTime := (playSound s.lastSoundPlayTime now false).lastSoundPlayTime
                tokens := s.tokens - rateLimitConfig.consumePerCall
                status := Status.loading } now2 llm tts).events } := by
  simp [handleEqualsRun, handleEqualsStart, h1, h2, h3]

/-- The acknowledgement events of the synchronous prefix never contain
the failure sound. -/
lemma start_events_no_fail_count (s : SessionState) (now : Nat) :
    (if (playSound s.lastSoundPlayTime now false).played = true then
      [AudioEvent.sfx "/sfx/keys/key_eq.mp3"] else ([] : List AudioEvent)).count
      (AudioEvent.sfx failedSoundPath) = 0 := by
  split <;> decide

/-- C2: with an admitted evaluate press, a generation-stage failure
(non-ok transport, e.g. HTTP 500, or a payload missing display or
explanation) never calls the synthesis stage and terminates in Failed
with the fixed apology string displayed and the failure sound played
exactly once; a synthesis-stage failure likewise terminates in Failed
with the apology and exactly one failure sound; and a final Result
state can only arise when both stages succeeded, with the displayed
text and the audio taken verbatim from the two responses — never a
partial success. -/
theorem C2_pipeline_failure_handling (s : SessionState) (now now2 : Nat)
    (llm : LlmHttpResponse) (tts : TtsHttpResponse)
    (h1 : s.expression ≠ []) (h2 : isEqualsDisabled s = false)
    (h3 : rateLimitConfig.consumePerCall ≤ s.tokens) :
    (llm.ok = false →
      (handleEqualsRun s now now2 llm tts).ttsCalled = false ∧
      (handleEqualsRun s now now2 llm tts).state.status = Status.failed ∧
      displayResult (handleEqualsRun s now now2 llm tts).state = uiTextFailed ∧
      (handleEqualsRun s now now2 llm tts).events.count
        (AudioEvent.sfx failedSoundPath) = 1) ∧
    ((llm.display = none ∨ llm.explanation = none) →
      (handleEqualsRun s now now2 llm tts).ttsCalled = false ∧
      (handleEqualsRun s now now2 llm tts).state.status = Status.failed ∧
      displayResult (handleEqualsRun s now now2 llm tts).state = uiTextFailed ∧
      (handleEqualsRun s now now2 llm tts).events.count
        (AudioEvent.sfx failedSoundPath) = 1) ∧
    (llm.ok = true → llm.display ≠ none → llm.explanation ≠ none →
      (tts.ok = false ∨ tts.dataUrl = none ∨ tts.dataUrl = some "") →
      (handleEqualsRun s now now2 llm tts).ttsCalled = true ∧
      (handleEqualsRun s now now2 llm tts).state.status = Status.failed ∧
      displayResult (handleEqualsRun s now now2 llm tts).state = uiTextFailed ∧
      (handleEqualsRun s now now2 llm tts).events.count
        (AudioEvent.sfx failedSoundPath) = 1) ∧
    ((handleEqualsRun s now now2 llm tts).state.status = Status.result →
      llm.ok = true ∧ tts.ok = true ∧
      tts.dataUrl = some (handleEqualsRun s now now2 llm tts).state.audioUrl ∧
      (handleEqualsRun s now now2 llm tts).state.audioUrl ≠ "" ∧
      llm.display = some (handleEqualsRun s now now2 llm tts).state.resultText) := by
  have hrl : s.isRateLimited = false := by
    have h := h2
    simp [isEqualsDisabled] at h
    exact h.2
  have htok : ¬ (s.tokens < rateLimitConfig.consumePerCall) := not_lt.mpr h3
  have hrun := run_admitted s now now2 llm tts h1 h2 htok
  have hcnt0 := start_events_no_fail_count s now
  refine ⟨?_, ?_, ?_, ?_⟩
  · intro hok
    have hfail := complete_llm_fail
      { s with
          lastSoundPlayTime := (playSound s.lastSoundPlayTime now false).lastSoundPlayTime
          tokens := s.tokens - rateLimitConfig.consumePerCall
          status := Status.loading } now2 llm tts (Or.inl hok)
    rw [hrun, hfail]
    refine ⟨rfl, rfl, ?_, ?_⟩
    · simp [displayResult, hrl]
    · simp [List.count_append, hcnt0]
      all_goals decide
  · intro hmiss
    cases hok : llm.ok with
    | false =>
      have hfail := complete_llm_fail
        { s with
            lastSoundPlayTime := (playSound s.lastSoundPlayTime now false).lastSoundPlayTime
            tokens := s.tokens - rateLimitConfig.consumePerCall
            status := Status.loading } now2 llm tts (Or.inl hok)
      rw [hrun, hfail]
      refine ⟨rfl, rfl, ?_, ?_⟩
      · simp [displayResult, hrl]
      · simp [List.count_append, hcnt0]
        all_goals decide
    | true =>
      have hfail := complete_llm_fail
        { s with
            lastSoundPlayTime := (playSound s.lastSoundPlayTime now false).lastSoundPlayTime
            tokens := s.tokens - rateLimitConfig.consumePerCall
            status := Status.loading } now2 llm tts (Or.inr hmiss)
      rw [hrun, hfail]
      refine ⟨rfl, rfl, ?_, ?_⟩
      · simp [displayResult, hrl]
      · simp [List.count_append, hcnt0]
        all_goals decide
  · intro hok hd he hf
    obtain ⟨d, hd'⟩ := Option.ne_none_iff_exists'.mp hd
    obtain ⟨e0, he'⟩ := Option.ne_none_iff_exists'.mp he
    have hfail := complete_tts_fail
      { s with
          lastSoundPlayTime := (playSound s.lastSoundPlayTime now false).lastSoundPlayTime
          tokens := s.tokens - rateLimitConfig.consumePerCall
          status := Status.loading } now2 llm tts d e0 hok hd' he' hf
    rw [hrun, hfail]
    refine ⟨rfl, rfl, ?_, ?_⟩
    · simp [displayResult, hrl]
    · simp [List.count_append, hcnt0]
      all_goals decide
  · intro hres
    rw [hrun] at hres
    cases hok : llm.ok with
    | false =>
      rw [complete_llm_fail _ now2 llm tts (Or.inl hok)] at hres
      simp at hres
    | true =>
      cases hd : llm.display with
      | none =>
        rw [complete_llm_fail _ now2 llm tts (Or.inr (Or.inl hd))] at hres
        simp at hres
      | some d =>
        cases he : llm.explanation with
        | none =>
          rw [complete_llm_fail _ now2 llm tts (Or.inr (Or.inr he))] at hres
          simp at hres
        | some e0 =>
          cases ht : tts.ok with
          | false =>
            rw [complete_tts_fail _ now2 llm tts d e0 hok hd he (Or.inl ht)] at hres
            simp at hres
          | true =>
            cases hu : tts.dataUrl with
            | none =>
              rw [complete_tts_fail _ now2 llm tts d e0 hok hd he
                (Or.inr (Or.inl hu))] at hres
              simp at hres
            | some u =>
              by_cases hue : u = ""
              · rw [complete_tts_fail _ now2 llm tts d e0 hok hd he
                  (Or.inr (Or.inr (hue ▸ hu)))] at hres
                simp at hres
              · rw [hrun, complete_success _ now2 llm tts d e0 u hok hd he ht hu hue]
                exact ⟨rfl, rfl, rfl, hue, rfl⟩

/-- Witness for C2 (scenario B): with expression "12+3*4" admitted and
the generation endpoint failing transport-level (HTTP 500 gives
`ok = false`), the run terminates Failed. -/
theorem C2_pipeline_failure_handling_witness :
    (handleEqualsRun
      { expression := ['1', '2', '+', '3', '*', '4']
        resultText := ""
        audioUrl := ""
        status := Status.editing
        tokens := 10
        isRateLimited := false
        lastSoundPlayTime := 0 }
      100 200
      { ok := false, display := none, explanation := none }
      { ok := true, dataUrl := some "data:audio/mp3;base64,AA==" }).state.status =
      Status.failed := by
  have h := C2_pipeline_failure_handling
    { expression := ['1', '2', '+', '3', '*', '4']
      resultText := ""
      audioUrl := ""
      status := Status.editing
      tokens := 10
      isRateLimited := false
      lastSoundPlayTime := 0 }
    100 200
    { ok := false, display := none, explanation := none }
    { ok := true, dataUrl := some "data:audio/mp3;base64,AA==" }
    (by decide) (by decide) (by decide)
  exact (h.1 rfl).2.1

/-- Witness for C6 (scenario D, final keystroke): a decimal point after
"3.5" is a no-op because the trailing segment already holds one. -/
theorem C6_decimal_per_segment_witness :
    (handleInput
      { expression := ['3', '.', '5']
        resultText := ""
        audioUrl := ""
        status := Status.editing
        tokens := 10
        isRateLimited := false
        lastSoundPlayTime := 0 } '.').expression = ['3', '.', '5'] := by
  have h := C6_decimal_per_segment
    { expression := ['3', '.', '5']
      resultText := ""
      audioUrl := ""
      status := Status.editing
      tokens := 10
      isRateLimited := false
      lastSoundPlayTime := 0 }
    (by decide) (by decide)
  rw [h.1]
  decide

/-- Witness for C7 (amended): appending 7 to the empty Idle session and
backspacing restores the empty expression. -/
theorem C7_backspace_left_inverse_witness :
    (backspace (handleInput initialState '7')).expression =
      initialState.expression :=
  C7_backspace_left_inverse initialState '7' (by decide) (by decide) (by decide)

end WeakCalc
